import Mathlib

/-!
Verification of the HandsOn-RAG notebook (`src/rag.ipynb`).

The notebook is a linear RAG tutorial: it loads documents from a directory,
separates them into texts and metadata (`get_text_metadatas`), chunks them
with a text splitter, embeds them into a Qdrant vector store, and runs
retrieval-augmented chains over two LLM clients.  This file shallowly embeds
the notebook's own code — its data-shaping functions and the configuration
values it passes to the libraries — and proves the specified properties.

Python conventions are made explicit: machine `dict` values become
association lists, a `None` argument that gets iterated raises `TypeError`,
a missing dict key raises `KeyError`; fallible evaluation is `Except`.
-/

namespace HandsOnRAG

/-- A value stored in a document's metadata dict: the notebook only ever
sees strings (file names) and integers (CSV row numbers, PDF page numbers). -/
inductive MetaValue where
  | str : String → MetaValue
  | int : Int → MetaValue
deriving DecidableEq, Repr

/-- A Python dict with string keys, as used for `Document.metadata`:
an association list (the notebook builds dicts with distinct literal keys). -/
abbrev Metadata := List (String × MetaValue)

/-- Dict lookup: the first binding of the key, if any. -/
def lookupMeta (m : Metadata) (k : String) : Option MetaValue :=
  match m with
  | [] => none
  | (k', v) :: rest => if k' = k then some v else lookupMeta rest k

/-- The langchain `Document` class as the notebook uses it:
`page_content` (the text) and `metadata` (a dict). -/
structure Document where
  page_content : String
  metadata : Metadata
deriving DecidableEq, Repr

/-- The Python exceptions the embedded notebook code can raise:
`TypeError` (iterating `None`) and `KeyError` (a missing dict key). -/
inductive PyError where
  | typeError : PyError
  | keyError : PyError
deriving DecidableEq, Repr

/-- `m[k]` on a Python dict: the value, or `KeyError` when the key is absent. -/
def getItem (m : Metadata) (k : String) : Except PyError MetaValue :=
  match lookupMeta m k with
  | some v => Except.ok v
  | none => Except.error PyError.keyError

/-- A Python list comprehension whose element expression may raise:
evaluates left to right, stopping at the first exception. -/
def mapE {α β : Type} (f : α → Except PyError β) : List α → Except PyError (List β)
  | [] => Except.ok []
  | x :: xs =>
    match f x with
    | Except.error e => Except.error e
    | Except.ok y =>
      match mapE f xs with
      | Except.error e => Except.error e
      | Except.ok ys => Except.ok (y :: ys)

/-- Iterating a possibly-`None` Python value: `None` raises `TypeError`. -/
def iterateArg {α : Type} : Option (List α) → Except PyError (List α)
  | none => Except.error PyError.typeError
  | some xs => Except.ok xs

/-- The per-CSV-document dict the notebook builds:
`{'source': doc.metadata['source'], 'row_page': doc.metadata['row']}`. -/
def csvMeta (doc : Document) : Except PyError Metadata :=
  match getItem doc.metadata "source" with
  | Except.error e => Except.error e
  | Except.ok s =>
    match getItem doc.metadata "row" with
    | Except.error e => Except.error e
    | Except.ok r => Except.ok [("source", s), ("row_page", r)]

/-- The per-PDF-document dict the notebook builds:
`{'source': doc.metadata['source'], 'row_page': doc.metadata['page']}`. -/
def pdfMeta (doc : Document) : Except PyError Metadata :=
  match getItem doc.metadata "source" with
  | Except.error e => Except.error e
  | Except.ok s =>
    match getItem doc.metadata "page" with
    | Except.error e => Except.error e
    | Except.ok p => Except.ok [("source", s), ("row_page", p)]

/-- The per-Word-document dict the notebook builds:
`{'source': doc.metadata['source'], 'row_page': ''}`. -/
def wordMeta (doc : Document) : Except PyError Metadata :=
  match getItem doc.metadata "source" with
  | Except.error e => Except.error e
  | Except.ok s => Except.ok [("source", s), ("row_page", MetaValue.str "")]

/-- The per-RST-document dict the notebook builds:
`{'source': doc.metadata['source'], 'row_page': ''}`. -/
def rstMeta (doc : Document) : Except PyError Metadata :=
  match getItem doc.metadata "source" with
  | Except.error e => Except.error e
  | Except.ok s => Except.ok [("source", s), ("row_page", MetaValue.str "")]

/-- `get_text_metadatas` from the notebook, statement by statement in the
source's order (texts comprehension then metadata comprehension, for csv,
pdf, word, rst in that order), with the source's `None` default arguments. -/
def get_text_metadatas (csv_data : Option (List Document) := none)
    (pdf_data : Option (List Document) := none)
    (word_data : Option (List Document) := none)
    (rst_data : Option (List Document) := none) :
    Except PyError (List String × List Metadata) := do
  let csv_docs ← iterateArg csv_data
  let csv_texts := csv_docs.map (fun doc => doc.page_content)
  let csv_metadatas ← mapE csvMeta csv_docs
  let pdf_docs ← iterateArg pdf_data
  let pdf_texts := pdf_docs.map (fun doc => doc.page_content)
  let pdf_metadatas ← mapE pdfMeta pdf_docs
  let word_docs ← iterateArg word_data
  let word_texts := word_docs.map (fun doc => doc.page_content)
  let word_metadatas ← mapE wordMeta word_docs
  let rst_docs ← iterateArg rst_data
  let rst_texts := rst_docs.map (fun doc => doc.page_content)
  let rst_metadatas ← mapE rstMeta rst_docs
  pure (csv_texts ++ pdf_texts ++ word_texts ++ rst_texts,
        csv_metadatas ++ pdf_metadatas ++ word_metadatas ++ rst_metadatas)

/-- The `page_content` strings of a list of documents, in order. -/
def page_contents (ds : List Document) : List String :=
  ds.map (fun d => d.page_content)

lemma mapE_ok_length {α β : Type} {f : α → Except PyError β} :
    ∀ {xs : List α} {ys : List β}, mapE f xs = Except.ok ys → ys.length = xs.length := by
  intro xs
  induction xs with
  | nil =>
    intro ys h
    simp only [mapE] at h
    cases h
    rfl
  | cons x xs ih =>
    intro ys h
    cases hx : f x with
    | error e => simp only [mapE, hx] at h; cases h
    | ok y =>
      cases hxs : mapE f xs with
      | error e => simp only [mapE, hx, hxs] at h; cases h
      | ok ys' =>
        simp only [mapE, hx, hxs] at h
        cases h
        simp [ih hxs]

lemma mapE_pointwise {α β : Type} {f : α → Except PyError β} :
    ∀ {xs : List α} {ys : List β}, mapE f xs = Except.ok ys →
      ∀ (i : Nat) (x : α) (y : β), xs[i]? = some x → ys[i]? = some y → f x = Except.ok y := by
  intro xs
  induction xs with
  | nil =>
    intro ys h i x y hx hy
    simp at hx
  | cons a xs ih =>
    intro ys h i x y hx hy
    cases ha : f a with
    | error e => simp only [mapE, ha] at h; cases h
    | ok b =>
      cases hxs : mapE f xs with
      | error e => simp only [mapE, ha, hxs] at h; cases h
      | ok ys' =>
        simp only [mapE, ha, hxs] at h
        cases h
        cases i with
        | zero =>
          simp at hx hy
          rw [← hx, ← hy]
          exact ha
        | succ n =>
          simp at hx hy
          exact ih hxs n x y hx hy

lemma mapE_ok_mem {α β : Type} {f : α → Except PyError β} :
    ∀ {xs : List α} {ys : List β}, mapE f xs = Except.ok ys →
      ∀ y ∈ ys, ∃ x ∈ xs, f x = Except.ok y := by
  intro xs
  induction xs with
  | nil =>
    intro ys h y hy
    simp only [mapE] at h
    cases h
    simp at hy
  | cons a xs ih =>
    intro ys h y hy
    cases ha : f a with
    | error e => simp only [mapE, ha] at h; cases h
    | ok b =>
      cases hxs : mapE f xs with
      | error e => simp only [mapE, ha, hxs] at h; cases h
      | ok ys' =>
        simp only [mapE, ha, hxs] at h
        cases h
        rcases List.mem_cons.mp hy with hy | hy
        · exact ⟨a, List.mem_cons_self a xs, hy ▸ ha⟩
        · rcases ih hxs y hy with ⟨x, hx, hfx⟩
          exact ⟨x, List.mem_cons_of_mem a hx, hfx⟩

lemma mapE_error {α β : Type} {f : α → Except PyError β} :
    ∀ {xs : List α} {e : PyError}, mapE f xs = Except.error e →
      ∃ x ∈ xs, f x = Except.error e := by
  intro xs
  induction xs with
  | nil =>
    intro e h
    simp only [mapE] at h
    cases h
  | cons a xs ih =>
    intro e h
    cases ha : f a with
    | error e' =>
      simp only [mapE, ha] at h
      cases h
      exact ⟨a, List.mem_cons_self a xs, ha⟩
    | ok b =>
      cases hxs : mapE f xs with
      | error e' =>
        simp only [mapE, ha, hxs] at h
        cases h
        rcases ih hxs with ⟨x, hx, hfx⟩
        exact ⟨x, List.mem_cons_of_mem a hx, hfx⟩
      | ok ys' =>
        simp only [mapE, ha, hxs] at h
        cases h

lemma get_text_metadatas_ok {a b c d : List Document} {texts : List String}
    {metas : List Metadata}
    (h : get_text_metadatas (some a) (some b) (some c) (some d) =
      Except.ok (texts, metas)) :
    ∃ am bm cm dm, mapE csvMeta a = Except.ok am ∧ mapE pdfMeta b = Except.ok bm ∧
      mapE wordMeta c = Except.ok cm ∧ mapE rstMeta d = Except.ok dm ∧
      texts = page_contents a ++ page_contents b ++ page_contents c ++ page_contents d ∧
      metas = am ++ bm ++ cm ++ dm := by
  simp only [get_text_metadatas, iterateArg, Bind.bind, Except.bind, pure,
    Except.pure] at h
  cases ha : mapE csvMeta a with
  | error e => rw [ha] at h; cases h
  | ok am =>
    rw [ha] at h
    cases hb : mapE pdfMeta b with
    | error e => rw [hb] at h; cases h
    | ok bm =>
      rw [hb] at h
      cases hc : mapE wordMeta c with
      | error e => rw [hc] at h; cases h
      | ok cm =>
        rw [hc] at h
        cases hd : mapE rstMeta d with
        | error e => rw [hd] at h; cases h
        | ok dm =>
          rw [hd] at h
          cases h
          exact ⟨am, bm, cm, dm, rfl, rfl, rfl, rfl, rfl, rfl⟩

lemma append_aligned {α β : Type} (P : α → β → Prop) {as cs : List α} {bs ds : List β}
    (hlen : as.length = bs.length)
    (h₁ : ∀ (i : Nat) (x : α) (y : β), as[i]? = some x → bs[i]? = some y → P x y)
    (h₂ : ∀ (i : Nat) (x : α) (y : β), cs[i]? = some x → ds[i]? = some y → P x y) :
    ∀ (i : Nat) (x : α) (y : β), (as ++ cs)[i]? = some x → (bs ++ ds)[i]? = some y →
      P x y := by
  intro i x y hx hy
  by_cases hi : i < as.length
  · rw [List.getElem?_append_left hi] at hx
    rw [List.getElem?_append_left (hlen ▸ hi)] at hy
    exact h₁ i x y hx hy
  · have hi' : as.length ≤ i := Nat.le_of_not_lt hi
    rw [List.getElem?_append_right hi'] at hx
    rw [List.getElem?_append_right (hlen ▸ hi')] at hy
    rw [hlen] at hx
    exact h₂ (i - bs.length) x y hx hy

/-- The metadata dict `m` is the one the notebook would build from document
`d` under one of the four per-type rules. -/
abbrev derivedMeta (d : Document) (m : Metadata) : Prop :=
  csvMeta d = Except.ok m ∨ pdfMeta d = Except.ok m ∨
  wordMeta d = Except.ok m ∨ rstMeta d = Except.ok m

/-- Claim C1: for every four input document lists, `get_text_metadatas` returns
texts and metadatas of equal length, positionally aligned — `metadatas[i]` is
built (by the per-type metadata rule) from the same document whose
`page_content` is `texts[i]` — with the per-type lists concatenated in the
fixed order csv, pdf, word, rst. -/
theorem get_text_metadatas_aligned (csv pdf word rst : List Document)
    (texts : List String) (metadatas : List Metadata)
    (h : get_text_metadatas (some csv) (some pdf) (some word) (some rst) =
      Except.ok (texts, metadatas)) :
    texts.length = metadatas.length ∧
    texts = page_contents csv ++ page_contents pdf ++
      page_contents word ++ page_contents rst ∧
    (∃ cm pm wm rm, mapE csvMeta csv = Except.ok cm ∧
      mapE pdfMeta pdf = Except.ok pm ∧ mapE wordMeta word = Except.ok wm ∧
      mapE rstMeta rst = Except.ok rm ∧ metadatas = cm ++ pm ++ wm ++ rm) ∧
    ∀ (i : Nat) (d : Document) (m : Metadata),
      (csv ++ pdf ++ word ++ rst)[i]? = some d → metadatas[i]? = some m →
      texts[i]? = some d.page_content ∧
      (csvMeta d = Except.ok m ∨ pdfMeta d = Except.ok m ∨
       wordMeta d = Except.ok m ∨ rstMeta d = Except.ok m) := by
  obtain ⟨cm, pm, wm, rm, hc, hp, hw, hr, htexts, hmetas⟩ := get_text_metadatas_ok h
  have hlc : cm.length = csv.length := mapE_ok_length hc
  have hlp : pm.length = pdf.length := mapE_ok_length hp
  have hlw : wm.length = word.length := mapE_ok_length hw
  have hlr : rm.length = rst.length := mapE_ok_length hr
  have htexts' : texts = page_contents (csv ++ pdf ++ word ++ rst) := by
    simp [htexts, page_contents]
  refine ⟨?_, htexts, ⟨cm, pm, wm, rm, hc, hp, hw, hr, hmetas⟩, ?_⟩
  · simp [htexts, hmetas, page_contents, hlc, hlp, hlw, hlr]
  · have hcsv : ∀ (i : Nat) (d : Document) (m : Metadata),
        csv[i]? = some d → cm[i]? = some m → derivedMeta d m :=
      fun i d m hd hm => Or.inl (mapE_pointwise hc i d m hd hm)
    have hpdf : ∀ (i : Nat) (d : Document) (m : Metadata),
        pdf[i]? = some d → pm[i]? = some m → derivedMeta d m :=
      fun i d m hd hm => Or.inr (Or.inl (mapE_pointwise hp i d m hd hm))
    have hword : ∀ (i : Nat) (d : Document) (m : Metadata),
        word[i]? = some d → wm[i]? = some m → derivedMeta d m :=
      fun i d m hd hm => Or.inr (Or.inr (Or.inl (mapE_pointwise hw i d m hd hm)))
    have hrst : ∀ (i : Nat) (d : Document) (m : Metadata),
        rst[i]? = some d → rm[i]? = some m → derivedMeta d m :=
      fun i d m hd hm => Or.inr (Or.inr (Or.inr (mapE_pointwise hr i d m hd hm)))
    have hcp := append_aligned derivedMeta hlc.symm hcsv hpdf
    have hcpw := append_aligned derivedMeta (by simp [hlc, hlp]) hcp hword
    have hall := append_aligned derivedMeta (by simp [hlc, hlp, hlw]) hcpw hrst
    intro i d m hd hm
    rw [hmetas] at hm
    refine ⟨?_, hall i d m hd hm⟩
    rw [htexts', page_contents, List.getElem?_map, hd]
    rfl

/-- A concrete CSV document of the shape the CSV loader produces
(`metadata={'source': 'filename.csv', 'row': 0}`). -/
def sampleCsvDoc : Document :=
  ⟨"c1", [("source", MetaValue.str "a.csv"), ("row", MetaValue.int 0)]⟩

/-- A concrete PDF document of the shape the PDF loader produces
(`metadata={'source': 'data/filename.pdf', 'page': 8}`). -/
def samplePdfDoc : Document :=
  ⟨"p1", [("source", MetaValue.str "b.pdf"), ("page", MetaValue.int 8)]⟩

/-- A concrete Word document of the shape the Word loader produces. -/
def sampleWordDoc : Document :=
  ⟨"w1", [("source", MetaValue.str "c.docx")]⟩

/-- A concrete RST document of the shape the RST loader produces. -/
def sampleRstDoc : Document :=
  ⟨"r1", [("source", MetaValue.str "d.rst")]⟩

/-- The texts `get_text_metadatas` returns on the four sample documents. -/
def sampleTexts : List String := ["c1", "p1", "w1", "r1"]

/-- The metadatas `get_text_metadatas` returns on the four sample documents. -/
def sampleMetadatas : List Metadata :=
  [[("source", MetaValue.str "a.csv"), ("row_page", MetaValue.int 0)],
   [("source", MetaValue.str "b.pdf"), ("row_page", MetaValue.int 8)],
   [("source", MetaValue.str "c.docx"), ("row_page", MetaValue.str "")],
   [("source", MetaValue.str "d.rst"), ("row_page", MetaValue.str "")]]

/-- Witness for claim C1: the alignment theorem applied to a concrete run with
one document of each type. -/
theorem get_text_metadatas_aligned_witness :
    sampleTexts.length = sampleMetadatas.length ∧
    sampleTexts = page_contents [sampleCsvDoc] ++ page_contents [samplePdfDoc] ++
      page_contents [sampleWordDoc] ++ page_contents [sampleRstDoc] ∧
    (∃ cm pm wm rm, mapE csvMeta [sampleCsvDoc] = Except.ok cm ∧
      mapE pdfMeta [samplePdfDoc] = Except.ok pm ∧
      mapE wordMeta [sampleWordDoc] = Except.ok wm ∧
      mapE rstMeta [sampleRstDoc] = Except.ok rm ∧
      sampleMetadatas = cm ++ pm ++ wm ++ rm) ∧
    ∀ (i : Nat) (d : Document) (m : Metadata),
      ([sampleCsvDoc] ++ [samplePdfDoc] ++ [sampleWordDoc] ++ [sampleRstDoc])[i]? =
        some d →
      sampleMetadatas[i]? = some m →
      sampleTexts[i]? = some d.page_content ∧
      (csvMeta d = Except.ok m ∨ pdfMeta d = Except.ok m ∨
       wordMeta d = Except.ok m ∨ rstMeta d = Except.ok m) :=
  get_text_metadatas_aligned [sampleCsvDoc] [samplePdfDoc] [sampleWordDoc]
    [sampleRstDoc] sampleTexts sampleMetadatas rfl

lemma csvMeta_ok {d : Document} {m : Metadata} (h : csvMeta d = Except.ok m) :
    ∃ s r, lookupMeta d.metadata "source" = some s ∧
      lookupMeta d.metadata "row" = some r ∧
      m = [("source", s), ("row_page", r)] := by
  unfold csvMeta getItem at h
  cases hs : lookupMeta d.metadata "source" with
  | none => rw [hs] at h; cases h
  | some s =>
    rw [hs] at h
    cases hr : lookupMeta d.metadata "row" with
    | none => rw [hr] at h; cases h
    | some r =>
      rw [hr] at h
      cases h
      exact ⟨s, r, rfl, rfl, rfl⟩

lemma pdfMeta_ok {d : Document} {m : Metadata} (h : pdfMeta d = Except.ok m) :
    ∃ s p, lookupMeta d.metadata "source" = some s ∧
      lookupMeta d.metadata "page" = some p ∧
      m = [("source", s), ("row_page", p)] := by
  unfold pdfMeta getItem at h
  cases hs : lookupMeta d.metadata "source" with
  | none => rw [hs] at h; cases h
  | some s =>
    rw [hs] at h
    cases hp : lookupMeta d.metadata "page" with
    | none => rw [hp] at h; cases h
    | some p =>
      rw [hp] at h
      cases h
      exact ⟨s, p, rfl, rfl, rfl⟩

lemma wordMeta_ok {d : Document} {m : Metadata} (h : wordMeta d = Except.ok m) :
    ∃ s, lookupMeta d.metadata "source" = some s ∧
      m = [("source", s), ("row_page", MetaValue.str "")] := by
  unfold wordMeta getItem at h
  cases hs : lookupMeta d.metadata "source" with
  | none => rw [hs] at h; cases h
  | some s =>
    rw [hs] at h
    cases h
    exact ⟨s, rfl, rfl⟩

lemma rstMeta_ok {d : Document} {m : Metadata} (h : rstMeta d = Except.ok m) :
    ∃ s, lookupMeta d.metadata "source" = some s ∧
      m = [("source", s), ("row_page", MetaValue.str "")] := by
  unfold rstMeta getItem at h
  cases hs : lookupMeta d.metadata "source" with
  | none => rw [hs] at h; cases h
  | some s =>
    rw [hs] at h
    cases h
    exact ⟨s, rfl, rfl⟩

/-- Claim C10: every metadata dict in the list returned by
`get_text_metadatas` has exactly the two keys `source` and `row_page`, in
that order, regardless of the originating file type. -/
theorem get_text_metadatas_uniform_keys (csv pdf word rst : List Document)
    (texts : List String) (metadatas : List Metadata)
    (h : get_text_metadatas (some csv) (some pdf) (some word) (some rst) =
      Except.ok (texts, metadatas)) :
    ∀ m ∈ metadatas, m.map Prod.fst = ["source", "row_page"] := by
  obtain ⟨cm, pm, wm, rm, hc, hp, hw, hr, _, hmetas⟩ := get_text_metadatas_ok h
  intro m hm
  rw [hmetas] at hm
  simp only [List.mem_append] at hm
  rcases hm with ((hm | hm) | hm) | hm
  · obtain ⟨d, _, hd⟩ := mapE_ok_mem hc m hm
    obtain ⟨s, r, _, _, hmeq⟩ := csvMeta_ok hd
    rw [hmeq]; rfl
  · obtain ⟨d, _, hd⟩ := mapE_ok_mem hp m hm
    obtain ⟨s, p, _, _, hmeq⟩ := pdfMeta_ok hd
    rw [hmeq]; rfl
  · obtain ⟨d, _, hd⟩ := mapE_ok_mem hw m hm
    obtain ⟨s, _, hmeq⟩ := wordMeta_ok hd
    rw [hmeq]; rfl
  · obtain ⟨d, _, hd⟩ := mapE_ok_mem hr m hm
    obtain ⟨s, _, hmeq⟩ := rstMeta_ok hd
    rw [hmeq]; rfl

/-- Witness for claim C10: the uniform-key theorem applied to the concrete run
with one document of each type, specialized to the word-document entry. -/
theorem get_text_metadatas_uniform_keys_witness :
    List.map Prod.fst
      [("source", MetaValue.str "c.docx"), ("row_page", MetaValue.str "")] =
      ["source", "row_page"] :=
  get_text_metadatas_uniform_keys [sampleCsvDoc] [samplePdfDoc] [sampleWordDoc]
    [sampleRstDoc] sampleTexts sampleMetadatas rfl
    [("source", MetaValue.str "c.docx"), ("row_page", MetaValue.str "")]
    (by simp [sampleMetadatas])

lemma getItem_error {m : Metadata} {k : String} {e : PyError}
    (h : getItem m k = Except.error e) : e = PyError.keyError := by
  unfold getItem at h
  cases hl : lookupMeta m k with
  | none =>
    rw [hl] at h
    injection h with h'
    exact h'.symm
  | some v => rw [hl] at h; cases h

lemma csvMeta_error {d : Document} {e : PyError}
    (h : csvMeta d = Except.error e) : e = PyError.keyError := by
  unfold csvMeta at h
  cases hs : getItem d.metadata "source" with
  | error e' =>
    rw [hs] at h
    injection h with h'
    exact h' ▸ getItem_error hs
  | ok s =>
    rw [hs] at h
    cases hr : getItem d.metadata "row" with
    | error e' =>
      rw [hr] at h
      injection h with h'
      exact h' ▸ getItem_error hr
    | ok r => rw [hr] at h; cases h

lemma pdfMeta_error {d : Document} {e : PyError}
    (h : pdfMeta d = Except.error e) : e = PyError.keyError := by
  unfold pdfMeta at h
  cases hs : getItem d.metadata "source" with
  | error e' =>
    rw [hs] at h
    injection h with h'
    exact h' ▸ getItem_error hs
  | ok s =>
    rw [hs] at h
    cases hp : getItem d.metadata "page" with
    | error e' =>
      rw [hp] at h
      injection h with h'
      exact h' ▸ getItem_error hp
    | ok p => rw [hp] at h; cases h

lemma wordMeta_error {d : Document} {e : PyError}
    (h : wordMeta d = Except.error e) : e = PyError.keyError := by
  unfold wordMeta at h
  cases hs : getItem d.metadata "source" with
  | error e' =>
    rw [hs] at h
    injection h with h'
    exact h' ▸ getItem_error hs
  | ok s => rw [hs] at h; cases h

lemma rstMeta_error {d : Document} {e : PyError}
    (h : rstMeta d = Except.error e) : e = PyError.keyError := by
  unfold rstMeta at h
  cases hs : getItem d.metadata "source" with
  | error e' =>
    rw [hs] at h
    injection h with h'
    exact h' ▸ getItem_error hs
  | ok s => rw [hs] at h; cases h

lemma get_text_metadatas_some_ne_typeError (a b c d : List Document) :
    get_text_metadatas (some a) (some b) (some c) (some d) ≠
      Except.error PyError.typeError := by
  intro h
  simp only [get_text_metadatas, iterateArg, Bind.bind, Except.bind, pure,
    Except.pure] at h
  cases h1 : mapE csvMeta a with
  | error e =>
    rw [h1] at h
    injection h with h'
    obtain ⟨x, _, hx⟩ := mapE_error h1
    rw [h'] at hx
    cases csvMeta_error hx
  | ok am =>
    rw [h1] at h
    cases h2 : mapE pdfMeta b with
    | error e =>
      rw [h2] at h
      injection h with h'
      obtain ⟨x, _, hx⟩ := mapE_error h2
      rw [h'] at hx
      cases pdfMeta_error hx
    | ok bm =>
      rw [h2] at h
      cases h3 : mapE wordMeta c with
      | error e =>
        rw [h3] at h
        injection h with h'
        obtain ⟨x, _, hx⟩ := mapE_error h3
        rw [h'] at hx
        cases wordMeta_error hx
      | ok cm =>
        rw [h3] at h
        cases h4 : mapE rstMeta d with
        | error e =>
          rw [h4] at h
          injection h with h'
          obtain ⟨x, _, hx⟩ := mapE_error h4
          rw [h'] at hx
          cases rstMeta_error hx
        | ok dm => rw [h4] at h; cases h

lemma get_text_metadatas_ok_args {c p w r : Option (List Document)}
    {v : List String × List Metadata}
    (h : get_text_metadatas c p w r = Except.ok v) :
    c ≠ none ∧ p ≠ none ∧ w ≠ none ∧ r ≠ none := by
  cases c with
  | none =>
    simp [get_text_metadatas, iterateArg, Bind.bind, Except.bind] at h
  | some a =>
    simp only [get_text_metadatas, iterateArg, Bind.bind, Except.bind, pure,
      Except.pure] at h
    cases h1 : mapE csvMeta a with
    | error e => rw [h1] at h; cases h
    | ok am =>
      rw [h1] at h
      dsimp only at h
      cases p with
      | none => cases h
      | some b =>
        dsimp only at h
        cases h2 : mapE pdfMeta b with
        | error e => rw [h2] at h; cases h
        | ok bm =>
          rw [h2] at h
          dsimp only at h
          cases w with
          | none => cases h
          | some c' =>
            dsimp only at h
            cases h3 : mapE wordMeta c' with
            | error e => rw [h3] at h; cases h
            | ok cm =>
              rw [h3] at h
              cases r with
              | none => cases h
              | some d' =>
                exact ⟨Option.some_ne_none a, Option.some_ne_none b,
                  Option.some_ne_none c', Option.some_ne_none d'⟩

/-- Counterexample to claim C9 as stated: when `csv_data` holds a document
with an empty metadata dict and `pdf_data` is `None`, the call raises
`KeyError` — not `TypeError` — even though one argument is `None`: the csv
metadata comprehension fails before `pdf_data` is ever iterated. -/
theorem get_text_metadatas_typeError_iff_fails :
    get_text_metadatas (some [⟨"x", []⟩]) none (some []) (some []) =
      Except.error PyError.keyError ∧
    PyError.keyError ≠ PyError.typeError :=
  ⟨rfl, by decide⟩

/-- Claim C9 (amended): `get_text_metadatas` raises `TypeError` only if at
least one of its four arguments is `None`; whenever one argument is `None`
the call never returns normally (an earlier malformed document can raise
`KeyError` first); and calling it with no arguments always raises
`TypeError`, because each default value `None` is iterated by a list
comprehension — the declared defaults are never usable. -/
theorem get_text_metadatas_none_behaviour (c p w r : Option (List Document))
    (v : List String × List Metadata) :
    (get_text_metadatas c p w r = Except.error PyError.typeError →
      c = none ∨ p = none ∨ w = none ∨ r = none) ∧
    (get_text_metadatas c p w r = Except.ok v →
      c ≠ none ∧ p ≠ none ∧ w ≠ none ∧ r ≠ none) ∧
    get_text_metadatas none none none none = Except.error PyError.typeError := by
  refine ⟨?_, fun h => get_text_metadatas_ok_args h, rfl⟩
  intro h
  cases c with
  | none => exact Or.inl rfl
  | some a =>
    cases p with
    | none => exact Or.inr (Or.inl rfl)
    | some b =>
      cases w with
      | none => exact Or.inr (Or.inr (Or.inl rfl))
      | some c' =>
        cases r with
        | none => exact Or.inr (Or.inr (Or.inr rfl))
        | some d' => exact absurd h (get_text_metadatas_some_ne_typeError a b c' d')

/-- Python's `sep.join(items)`: the items concatenated with `sep` between
consecutive items, the empty string for no items. -/
def joinSep (sep : String) : List String → String
  | [] => ""
  | [x] => x
  | x :: xs => x ++ sep ++ joinSep sep xs

/-- `format_docs` from the notebook:
`"\n\n".join(doc.page_content for doc in docs)`. -/
def format_docs (docs : List Document) : String :=
  joinSep "\n\n" (docs.map (fun doc => doc.page_content))

/-- Claim C8: `format_docs` joins the documents' `page_content` strings in
order with the two-character separator; the empty list yields the empty
string and a one-element list yields that document's text unchanged. -/
theorem format_docs_join :
    format_docs [] = "" ∧
    (∀ d : Document, format_docs [d] = d.page_content) ∧
    (∀ (d : Document) (ds : List Document), format_docs (d :: ds) =
      d.page_content ++ cond ds.isEmpty "" ("\n\n" ++ format_docs ds)) ∧
    String.length "\n\n" = 2 := by
  refine ⟨rfl, fun d => rfl, ?_, rfl⟩
  intro d ds
  cases ds with
  | nil => simp [format_docs, joinSep]
  | cons d' ds' =>
    simp only [format_docs, List.map, joinSep, List.isEmpty, cond]
    rw [String.append_assoc]

/-- Modelled from the spec: `text_splitter.create_documents` is
text-splitting-library code rather than repository code; the spec says a
chunk's metadata inherits from the originating document and that the notebook
passes the aligned `texts`/`metadatas` lists to it.  Modelled, for an
arbitrary splitting function, as: each text is split into chunks and every
chunk of `texts[i]` becomes a `Document` carrying `metadatas[i]`. -/
def create_documents (split_text : String → List String)
    (texts : List String) (metadatas : List Metadata) : List Document :=
  (texts.zip metadatas).flatMap
    (fun tm => (split_text tm.1).map (fun chunk => ⟨chunk, tm.2⟩))

/-- Claim C2: the metadata dict built by `get_text_metadatas` inherits
`source` from the originating document; `row_page` is the document's `row`
for csv, its `page` for pdf, and the empty string for word and rst; and
`create_documents` attaches the metadata at index `i` to exactly the chunks
split from `texts[i]`. -/
theorem chunk_metadata_inheritance :
    (∀ (d : Document) (m : Metadata), csvMeta d = Except.ok m →
      lookupMeta m "source" = lookupMeta d.metadata "source" ∧
      lookupMeta m "row_page" = lookupMeta d.metadata "row") ∧
    (∀ (d : Document) (m : Metadata), pdfMeta d = Except.ok m →
      lookupMeta m "source" = lookupMeta d.metadata "source" ∧
      lookupMeta m "row_page" = lookupMeta d.metadata "page") ∧
    (∀ (d : Document) (m : Metadata), wordMeta d = Except.ok m →
      lookupMeta m "source" = lookupMeta d.metadata "source" ∧
      lookupMeta m "row_page" = some (MetaValue.str "")) ∧
    (∀ (d : Document) (m : Metadata), rstMeta d = Except.ok m →
      lookupMeta m "source" = lookupMeta d.metadata "source" ∧
      lookupMeta m "row_page" = some (MetaValue.str "")) ∧
    (∀ (split_text : String → List String) (texts : List String)
      (metas : List Metadata) (i : Nat) (t : String) (m : Metadata) (c : String),
      texts[i]? = some t → metas[i]? = some m → c ∈ split_text t →
      Document.mk c m ∈ create_documents split_text texts metas) ∧
    (∀ (split_text : String → List String) (texts : List String)
      (metas : List Metadata) (d : Document),
      d ∈ create_documents split_text texts metas →
      ∃ (i : Nat) (t : String) (m : Metadata), texts[i]? = some t ∧
        metas[i]? = some m ∧ d.page_content ∈ split_text t ∧ d.metadata = m) := by
  refine ⟨?_, ?_, ?_, ?_, ?_, ?_⟩
  · intro d m h
    obtain ⟨s, r, hs, hr, hmeq⟩ := csvMeta_ok h
    rw [hmeq, hs, hr]
    exact ⟨rfl, rfl⟩
  · intro d m h
    obtain ⟨s, p, hs, hp, hmeq⟩ := pdfMeta_ok h
    rw [hmeq, hs, hp]
    exact ⟨rfl, rfl⟩
  · intro d m h
    obtain ⟨s, hs, hmeq⟩ := wordMeta_ok h
    rw [hmeq, hs]
    exact ⟨rfl, rfl⟩
  · intro d m h
    obtain ⟨s, hs, hmeq⟩ := rstMeta_ok h
    rw [hmeq, hs]
    exact ⟨rfl, rfl⟩
  · intro split_text texts metas i t m c ht hm hc
    have hz : (texts.zip metas)[i]? = some (t, m) :=
      List.getElem?_zip_eq_some.mpr ⟨ht, hm⟩
    have hmem : (t, m) ∈ texts.zip metas := List.mem_iff_getElem?.mpr ⟨i, hz⟩
    exact List.mem_flatMap.mpr ⟨(t, m), hmem, List.mem_map.mpr ⟨c, hc, rfl⟩⟩
  · intro split_text texts metas d hd
    obtain ⟨⟨t, m⟩, htm, hd'⟩ := List.mem_flatMap.mp hd
    obtain ⟨c, hc, hceq⟩ := List.mem_map.mp hd'
    obtain ⟨i, hz⟩ := List.mem_iff_getElem?.mp htm
    obtain ⟨ht, hm⟩ := List.getElem?_zip_eq_some.mp hz
    cases hceq
    exact ⟨i, t, m, ht, hm, hc, rfl⟩

/-- The arguments the notebook passes to langchain's `DirectoryLoader` for
one file type (the nested `csv_args` dict is flattened into dotted keys).
The library's constructor defaults `use_multithreading` to `False`; only a
call that passes the flag explicitly overrides it. -/
structure DirectoryLoaderConfig where
  data_dir_path : String
  glob : String
  loader_cls : String
  use_multithreading : Bool := false
  loader_kwargs : List (String × String) := []
deriving DecidableEq, Repr

/-- The notebook's `DataLoaders` class: it only stores the directory path. -/
structure DataLoaders where
  data_dir_path : String
deriving DecidableEq, Repr

/-- `DataLoaders.csv_loader`: a `DirectoryLoader` over `**/*.csv` with
`CSVLoader`, `use_multithreading=True` and the csv delimiter/quotechar args. -/
def DataLoaders.csv_loader (self : DataLoaders) : DirectoryLoaderConfig :=
  { data_dir_path := self.data_dir_path
    glob := "**/*.csv"
    loader_cls := "CSVLoader"
    use_multithreading := true
    loader_kwargs := [("csv_args.delimiter", ","), ("csv_args.quotechar", "\"")] }

/-- `DataLoaders.pdf_loader`: a `DirectoryLoader` over `**/*.pdf` with
`PyPDFLoader` and no further arguments. -/
def DataLoaders.pdf_loader (self : DataLoaders) : DirectoryLoaderConfig :=
  { data_dir_path := self.data_dir_path
    glob := "**/*.pdf"
    loader_cls := "PyPDFLoader" }

/-- `DataLoaders.word_loader`: a `DirectoryLoader` over `**/*.docx` with
`Docx2txtLoader` and no further arguments. -/
def DataLoaders.word_loader (self : DataLoaders) : DirectoryLoaderConfig :=
  { data_dir_path := self.data_dir_path
    glob := "**/*.docx"
    loader_cls := "Docx2txtLoader" }

/-- `DataLoaders.rst_loader`: a `DirectoryLoader` over `**/*.rst` with
`UnstructuredRSTLoader` in single mode. -/
def DataLoaders.rst_loader (self : DataLoaders) : DirectoryLoaderConfig :=
  { data_dir_path := self.data_dir_path
    glob := "**/*.rst"
    loader_cls := "UnstructuredRSTLoader"
    loader_kwargs := [("mode", "single")] }

/-- Counterexample to claim C4 as stated: the CSV directory loader is
constructed with `use_multithreading=True`, so CSV file loading is configured
to run on multiple threads — not everything is sequential. -/
theorem csv_loader_uses_multithreading :
    (DataLoaders.mk "data").csv_loader.use_multithreading = true := rfl

/-- Claim C4 (amended): the notebook's operations are synchronous and
sequential except that the CSV directory loader is configured with
`use_multithreading=True`; the pdf, word and rst loaders keep the library's
sequential default. -/
theorem loader_concurrency_config (path : String) :
    (DataLoaders.mk path).csv_loader.use_multithreading = true ∧
    (DataLoaders.mk path).pdf_loader.use_multithreading = false ∧
    (DataLoaders.mk path).word_loader.use_multithreading = false ∧
    (DataLoaders.mk path).rst_loader.use_multithreading = false :=
  ⟨rfl, rfl, rfl, rfl⟩

/-- One library call or client construction of the notebook, with the
error-handling-relevant facts of its call site: a numeric retry parameter if
one is passed, whether the call stands in a try/except, and whether any
error taxonomy is defined around it. -/
structure Operation where
  name : String
  retries : Option Nat
  catches_exceptions : Bool
  error_taxonomy : Bool
deriving DecidableEq, Repr

/-- The `ChatOpenAI(temperature=0, model="gpt-4o-mini", max_retries=500)`
construction of the notebook. -/
structure ChatOpenAIConfig where
  temperature : Nat
  model : String
  max_retries : Nat
deriving DecidableEq, Repr

/-- The notebook's `llm` object. -/
def llm : ChatOpenAIConfig :=
  { temperature := 0
    model := "gpt-4o-mini"
    max_retries := 500 }

/-- Every operation the notebook performs, in cell order, with its
error-handling facts transcribed from the source: no call is wrapped in
try/except, none defines error types, and only the `ChatOpenAI` construction
passes a numeric retry parameter. -/
def notebook_operations : List Operation :=
  [⟨"load_dotenv", none, false, false⟩,
   ⟨"dir_csv_loader.load", none, false, false⟩,
   ⟨"dir_word_loader.load", none, false, false⟩,
   ⟨"dir_pdf_loader.load", none, false, false⟩,
   ⟨"dir_rst_loader.load", none, false, false⟩,
   ⟨"get_text_metadatas", none, false, false⟩,
   ⟨"RecursiveCharacterTextSplitter.from_tiktoken_encoder", none, false, false⟩,
   ⟨"text_splitter.create_documents", none, false, false⟩,
   ⟨"OpenAIEmbeddings", none, false, false⟩,
   ⟨"Qdrant.from_documents", none, false, false⟩,
   ⟨"vectorstore.as_retriever", none, false, false⟩,
   ⟨"hub.pull", none, false, false⟩,
   ⟨"format_docs", none, false, false⟩,
   ⟨"ChatOpenAI", some 500, false, false⟩,
   ⟨"llm.invoke", none, false, false⟩,
   ⟨"openai_rag_chain.invoke", none, false, false⟩,
   ⟨"Ollama", none, false, false⟩,
   ⟨"ollamallm.invoke", none, false, false⟩,
   ⟨"ollama_rag_chain.invoke", none, false, false⟩,
   ⟨"openai_rag_chain_with_source.invoke", none, false, false⟩]

/-- Claim C5: exactly one operation — the `ChatOpenAI` construction — passes
a numeric retry parameter (`max_retries=500`); no operation catches an
exception or defines an error taxonomy. -/
theorem retry_configuration :
    notebook_operations.filter (fun op => op.retries.isSome) =
      [⟨"ChatOpenAI", some 500, false, false⟩] ∧
    llm.max_retries = 500 ∧
    notebook_operations.all (fun op => !op.catches_exceptions) = true ∧
    notebook_operations.all (fun op => !op.error_taxonomy) = true := by
  refine ⟨?_, rfl, rfl, rfl⟩
  rfl

/-- An operating-system environment: variable name to (possibly absent)
value. -/
abbrev Env := String → Option String

/-- `os.getenv(key, default)`: the variable's value, or the default when the
variable is unset. -/
def getenvD (env : Env) (key dflt : String) : String :=
  (env key).getD dflt

/-- `data_dir_path = os.getenv('DATA_DIR_PATH', "data")`. -/
def data_dir_path (env : Env) : String :=
  getenvD env "DATA_DIR_PATH" "data"

/-- `collection_name = os.getenv('QDRANT_COLLECTION_NAME', "data-collection")`. -/
def collection_name (env : Env) : String :=
  getenvD env "QDRANT_COLLECTION_NAME" "data-collection"

/-- `ollama_api_key = os.getenv('OLLAMA_API_KEY')`: no default, may be
absent. -/
def ollama_api_key (env : Env) : Option String :=
  env "OLLAMA_API_KEY"

/-- How a Python f-string renders a possibly-`None` string value. -/
def pyStr : Option String → String
  | none => "None"
  | some s => s

/-- `ollama_headers = {"Authorization": f"Bearer {ollama_api_key}"}`. -/
def ollama_headers (env : Env) : List (String × String) :=
  [("Authorization", "Bearer " ++ pyStr (ollama_api_key env))]

/-- The `Ollama(base_url=..., model=..., headers=...)` construction of the
notebook. -/
structure OllamaConfig where
  base_url : String
  model : String
  headers : List (String × String)
deriving DecidableEq, Repr

/-- The notebook's `ollamallm` object. -/
def ollamallm (env : Env) : OllamaConfig :=
  { base_url := "https://ollama.software.ncsa.illinois.edu/ollama"
    model := "llama3.2:latest"
    headers := ollama_headers env }

/-- The environment variables the notebook itself reads, in reading order
(its `os.getenv` calls; API keys for the OpenAI clients are read inside the
libraries). -/
def env_keys_read : List String :=
  ["DATA_DIR_PATH", "QDRANT_COLLECTION_NAME", "OLLAMA_API_KEY"]

/-- Claim C6: the notebook's external configuration is exactly the
environment variables: the data directory defaults to `data`, the collection
name defaults to `data-collection`, the Ollama bearer token is the value of
`OLLAMA_API_KEY`, and no other configuration is read. -/
theorem configuration_inputs (env : Env) :
    (env "DATA_DIR_PATH" = none → data_dir_path env = "data") ∧
    (∀ v, env "DATA_DIR_PATH" = some v → data_dir_path env = v) ∧
    (env "QDRANT_COLLECTION_NAME" = none →
      collection_name env = "data-collection") ∧
    (∀ v, env "QDRANT_COLLECTION_NAME" = some v → collection_name env = v) ∧
    (∀ k, env "OLLAMA_API_KEY" = some k →
      (ollamallm env).headers = [("Authorization", "Bearer " ++ k)]) ∧
    env_keys_read = ["DATA_DIR_PATH", "QDRANT_COLLECTION_NAME", "OLLAMA_API_KEY"] := by
  refine ⟨?_, ?_, ?_, ?_, ?_, rfl⟩
  · intro h
    simp [data_dir_path, getenvD, h]
  · intro v h
    simp [data_dir_path, getenvD, h]
  · intro h
    simp [collection_name, getenvD, h]
  · intro v h
    simp [collection_name, getenvD, h]
  · intro k h
    simp [ollamallm, ollama_headers, ollama_api_key, pyStr, h]

/-- The notebook's pipeline stages. -/
inductive Stage where
  | load
  | chunk
  | embed
  | retrieve
  | prompt_llm
deriving DecidableEq, Repr

/-- The index of the notebook code cell that performs each stage: cell 3
runs the four `.load()` calls; cell 8 builds the splitter and chunks the
texts; cell 12 embeds the chunks into the Qdrant store
(`Qdrant.from_documents`); cell 13 builds the retriever over that store; the
chain assembled in cell 20 first retrieves and then prompts the LLM, and
cell 21 is its first invocation. -/
def cellIndex : Stage → Nat
  | Stage.load => 3
  | Stage.chunk => 8
  | Stage.embed => 12
  | Stage.retrieve => 13
  | Stage.prompt_llm => 21

/-- The data dependency of each stage, read off the notebook's data flow:
chunking consumes the loaded texts, embedding consumes the chunks, the
retriever is built over the vector store, and the chain prompts the LLM with
the retrieved context. -/
def dependsOn : Stage → List Stage
  | Stage.load => []
  | Stage.chunk => [Stage.load]
  | Stage.embed => [Stage.chunk]
  | Stage.retrieve => [Stage.embed]
  | Stage.prompt_llm => [Stage.retrieve]

/-- The five stages in the order the notebook executes them. -/
def stagesInOrder : List Stage :=
  [Stage.load, Stage.chunk, Stage.embed, Stage.retrieve, Stage.prompt_llm]

/-- Claim C7: the notebook executes load, chunk, embed, retrieve, prompt in
this fixed order (strictly increasing cell indices) and no stage's cell runs
before the cell of a stage it depends on. -/
theorem pipeline_stage_order :
    stagesInOrder =
      [Stage.load, Stage.chunk, Stage.embed, Stage.retrieve, Stage.prompt_llm] ∧
    List.Chain' (fun a b => cellIndex a < cellIndex b) stagesInOrder ∧
    (stagesInOrder.all fun s =>
      (dependsOn s).all fun d => decide (cellIndex d < cellIndex s)) = true := by
  refine ⟨rfl, ?_, rfl⟩
  simp [stagesInOrder, List.chain'_cons, List.chain'_singleton, cellIndex]

end HandsOnRAG
